import Mathlib

/-!
Verification development for the ZakuZaku quiz/spaced-repetition application.

The Python sources are shallowly embedded:
* Python strings are `List Char` (`PyStr`); `str.strip`, `str.lower`,
  `str.split`, … are modelled on ASCII text, which is the scope the
  verifier and parser logic exercises.
* Python `float` arithmetic of the SRS scheduler is modelled over `ℚ`.
* SQLite tables are lists of rows; `INSERT OR REPLACE` / `INSERT OR IGNORE`
  keep their documented SQLite semantics (a replaced row receives a fresh
  AUTOINCREMENT rowid).
* Code that can raise (list indexing, division) is modelled in `Except`.
-/

namespace ZakuZaku

/-- Python strings, modelled as lists of characters. -/
abbrev PyStr := List Char

/-- Shorthand to write a concrete `PyStr`. -/
def pys (s : String) : PyStr := s.toList

/-- The whitespace characters recognised by Python's `str.strip` / `str.split`
(ASCII scope): space, tab, newline, carriage return, vertical tab, form feed. -/
def isPySpace (c : Char) : Bool :=
  c = ' ' || c = '\t' || c = '\n' || c = '\r' || c = '\x0b' || c = '\x0c'

/-- ASCII model of Python's `str.lower`, one character. -/
def lowerChar (c : Char) : Char :=
  match c with
  | 'A' => 'a' | 'B' => 'b' | 'C' => 'c' | 'D' => 'd' | 'E' => 'e'
  | 'F' => 'f' | 'G' => 'g' | 'H' => 'h' | 'I' => 'i' | 'J' => 'j'
  | 'K' => 'k' | 'L' => 'l' | 'M' => 'm' | 'N' => 'n' | 'O' => 'o'
  | 'P' => 'p' | 'Q' => 'q' | 'R' => 'r' | 'S' => 's' | 'T' => 't'
  | 'U' => 'u' | 'V' => 'v' | 'W' => 'w' | 'X' => 'x' | 'Y' => 'y'
  | 'Z' => 'z'
  | c => c

/-- ASCII model of Python's `str.upper`, one character. -/
def upperChar (c : Char) : Char :=
  match c with
  | 'a' => 'A' | 'b' => 'B' | 'c' => 'C' | 'd' => 'D' | 'e' => 'E'
  | 'f' => 'F' | 'g' => 'G' | 'h' => 'H' | 'i' => 'I' | 'j' => 'J'
  | 'k' => 'K' | 'l' => 'L' | 'm' => 'M' | 'n' => 'N' | 'o' => 'O'
  | 'p' => 'P' | 'q' => 'Q' | 'r' => 'R' | 's' => 'S' | 't' => 'T'
  | 'u' => 'U' | 'v' => 'V' | 'w' => 'W' | 'x' => 'X' | 'y' => 'Y'
  | 'z' => 'Z'
  | c => c

/-- `s.lower()`. -/
def pyLower (s : PyStr) : PyStr := s.map lowerChar

/-- `s.upper()`. -/
def pyUpper (s : PyStr) : PyStr := s.map upperChar

/-- `s.strip()`: remove leading and trailing whitespace. -/
def pyStrip (s : PyStr) : PyStr :=
  (s.dropWhile isPySpace).rdropWhile isPySpace

/-- `s.strip().lower()`, the normalisation applied by every checker in
`quiz_manager.py`. -/
def pyNorm (s : PyStr) : PyStr := pyLower (pyStrip s)

/-- Auxiliary for `pyTokens`: accumulates the current word (reversed). -/
def pyTokensAux : PyStr → PyStr → List PyStr
  | [], acc => if acc.isEmpty then [] else [acc.reverse]
  | c :: rest, acc =>
    if isPySpace c then
      if acc.isEmpty then pyTokensAux rest []
      else acc.reverse :: pyTokensAux rest []
    else pyTokensAux rest (c :: acc)

/-- `s.split()` with no separator: whitespace-run splitting, empty pieces
dropped. -/
def pyTokens (s : PyStr) : List PyStr := pyTokensAux s []

/-- `s.split(',')`: split at every comma, keeping empty pieces
(`"".split(',') == [""]`). -/
def pySplitComma : PyStr → List PyStr
  | [] => [[]]
  | c :: rest =>
    if c = ',' then [] :: pySplitComma rest
    else
      match pySplitComma rest with
      | [] => [[c]]
      | s :: ss => (c :: s) :: ss

/-! Section: answer verifier (`src/quiz_manager.py`)

Python operations that can raise are modelled in `Except VErr`:
list subscripting (`IndexError`) and division (`ZeroDivisionError`).
-/

/-- Run-time errors the verifier's primitives could raise. -/
inductive VErr where
  | indexError
  | zeroDiv
deriving DecidableEq, Repr

/-- Python list subscripting `l[i]` with an `int` index (no negative-index
wrap-around is needed by the code under study: every subscript is guarded
to be `≥ 0`). -/
def listGetI (l : List PyStr) (i : ℤ) : Except VErr PyStr :=
  if h : 0 ≤ i ∧ i.toNat < l.length then .ok (l.get ⟨i.toNat, h.2⟩)
  else .error .indexError

/-- Python division `a / b` over the rationals. -/
def divQ (a b : ℚ) : Except VErr ℚ :=
  if b = 0 then .error .zeroDiv else .ok (a / b)

/-- `QuizManager._check_single_choice_answer`. -/
def check_single_choice_answer (user_answer correct_answer : PyStr)
    (options : List PyStr) : Except VErr Bool :=
  let user_normalized := pyNorm user_answer
  match user_normalized with
  | [c] =>
    if upperChar c ∈ ['A', 'B', 'C', 'D'] then
      let letter_index : ℤ := ((upperChar c).toNat : ℤ) - 65
      if 0 ≤ letter_index ∧ letter_index < (options.length : ℤ) then
        match listGetI options letter_index with
        | .error e => .error e
        | .ok user_answer_text => .ok (pyNorm user_answer_text == pyNorm correct_answer)
      else
        .ok (user_normalized == pyNorm correct_answer)
    else
      .ok (user_normalized == pyNorm correct_answer)
  | _ => .ok (user_normalized == pyNorm correct_answer)

/-- The `for letter in user_letters` loop of
`QuizManager._check_multiple_choice_answer`: map each letter whose index is
in range to the normalised option text, silently dropping the others. -/
def collectOptionTexts (options : List PyStr) : List Char → Except VErr (List PyStr)
  | [] => .ok []
  | letter :: rest =>
    let letter_index : ℤ := (letter.toNat : ℤ) - 65
    if 0 ≤ letter_index ∧ letter_index < (options.length : ℤ) then
      match listGetI options letter_index with
      | .error e => .error e
      | .ok t =>
        match collectOptionTexts options rest with
        | .error e => .error e
        | .ok tail => .ok (pyNorm t :: tail)
    else
      collectOptionTexts options rest

/-- `QuizManager._check_multiple_choice_answer`.  `options` is `None`-able
(Python default `None`); `if options:` treats `None` and `[]` alike. -/
def check_multiple_choice_answer (user_answer : PyStr)
    (correct_answers : List PyStr) (options : Option (List PyStr)) :
    Except VErr Bool :=
  let user_normalized := pyNorm user_answer
  if user_normalized.all (fun c => c ∈ ['a', 'b', 'c', 'd', ',', ' ']) then
    let user_letters :=
      (user_normalized.filter (fun c => upperChar c ∈ ['A', 'B', 'C', 'D'])).map upperChar
    let os := options.getD []
    match (if os.isEmpty then Except.ok [] else collectOptionTexts os user_letters) with
    | .error e => .error e
    | .ok user_answers =>
      let correct_normalized := correct_answers.map pyNorm
      .ok (user_answers.toFinset == correct_normalized.toFinset)
  else
    let user_parts := (pySplitComma user_answer).map pyNorm
    let correct_normalized := correct_answers.map pyNorm
    .ok (user_parts.toFinset == correct_normalized.toFinset)

/-- `QuizManager._check_text_answer`. -/
def check_text_answer (user_answer correct_answer : PyStr) : Except VErr Bool :=
  let user_normalized := pyNorm user_answer
  let correct_normalized := pyNorm correct_answer
  let is_exact_match := user_normalized == correct_normalized
  if correct_normalized.length > 10 then
    let correct_words := (pyTokens correct_normalized).toFinset
    let user_words := (pyTokens user_normalized).toFinset
    if 0 < correct_words.card then
      match divQ ((correct_words ∩ user_words).card : ℚ) ((correct_words.card : ℚ)) with
      | .error e => .error e
      | .ok coverage => .ok (is_exact_match || decide ((7 : ℚ) / 10 ≤ coverage))
    else
      .ok is_exact_match
  else
    .ok is_exact_match

/-- `QuizManager.check_answer`, the dispatch on question type (the database
write and session counters it performs are modelled separately in the
store section). -/
def check_answer (user_answer correct_answer : PyStr) (question_type : PyStr)
    (options : Option (List PyStr)) (correct_answers : Option (List PyStr)) :
    Except VErr Bool :=
  if question_type == pys "single_choice" && !(options.getD []).isEmpty then
    check_single_choice_answer user_answer correct_answer (options.getD [])
  else if question_type == pys "multiple_choice" && !(correct_answers.getD []).isEmpty then
    check_multiple_choice_answer user_answer (correct_answers.getD []) options
  else
    check_text_answer user_answer correct_answer

/-! Section: review store and SRS scheduler (`src/database.py`)

Timestamps: the code stores `datetime.now().isoformat()` strings and adds
`timedelta(days=interval)`; ISO strings of equal format compare
chronologically, so time is modelled as an integer clock `now` with the
interval added in days.  `float` arithmetic is modelled over `ℚ`
(`2.5 = 5/2`, `0.1 = 1/10`, `0.08 = 2/25`, `0.02 = 1/50`, `0.2 = 1/5`,
`1.3 = 13/10`). -/

/-- A row of the `srs_stats` table (`_init_database` defaults:
`difficulty 2.5, interval_days 1, repetitions 0, ease_factor 2.5`). -/
structure SrsRow where
  question_id : Nat
  difficulty : ℚ := 5 / 2
  interval_days : ℤ := 1
  repetitions : ℤ := 0
  next_review : Option ℤ := none
  ease_factor : ℚ := 5 / 2
  last_review : Option ℤ := none
deriving DecidableEq, Repr

/-- A row of the `questions` table. -/
structure QuestionRow where
  id : Nat
  quiz_file : PyStr
  question_id : PyStr
  question_text : PyStr
  correct_answer : PyStr
  question_type : PyStr
  options : Option (List PyStr)
  correct_answers : Option (List PyStr)
deriving DecidableEq, Repr

/-- A row of the `user_answers` table. -/
structure AnswerRow where
  question_id : Nat
  user_answer : PyStr
  is_correct : Bool
  timestamp : ℤ
  response_time : Option ℚ
deriving DecidableEq, Repr

/-- The SQLite database: three tables plus the AUTOINCREMENT sequence of
`questions` (largest rowid ever allocated; SQLite never reuses it). -/
structure DB where
  questions : List QuestionRow
  user_answers : List AnswerRow
  srs_stats : List SrsRow
  seq : Nat
deriving DecidableEq, Repr

/-- The empty database produced by `_init_database`. -/
def emptyDB : DB := ⟨[], [], [], 0⟩

/-- Python `int(q)`: truncation towards zero. -/
def pyInt (q : ℚ) : ℤ := if 0 ≤ q then ⌊q⌋ else ⌈q⌉

/-- The state transition of `Database._update_srs_stats` on one answer
(`now` is the wall-clock instant of the update). -/
def update_srs_row (r : SrsRow) (is_correct : Bool) (now : ℤ) : SrsRow :=
  if is_correct then
    let interval_days : ℤ :=
      if r.repetitions = 0 then 1
      else if r.repetitions = 1 then 6
      else pyInt ((r.interval_days : ℚ) * r.ease_factor)
    { r with
      interval_days := interval_days
      repetitions := r.repetitions + 1
      ease_factor :=
        max (13 / 10)
          (r.ease_factor + (1 / 10 - (3 - r.difficulty) * (2 / 25 + (3 - r.difficulty) * (1 / 50))))
      next_review := some (now + interval_days)
      last_review := some now }
  else
    { r with
      interval_days := 1
      repetitions := 0
      ease_factor := max (13 / 10) (r.ease_factor - 1 / 5)
      next_review := some (now + 1)
      last_review := some now }

/-- `Database._update_srs_stats`: look the row up; a missing row is a no-op,
otherwise the row is replaced by its successor state. -/
def update_srs_stats (db : DB) (question_id : Nat) (is_correct : Bool) (now : ℤ) : DB :=
  { db with
    srs_stats :=
      db.srs_stats.map (fun s =>
        if s.question_id = question_id then update_srs_row s is_correct now else s) }

/-- The fresh `srs_stats` row inserted by `add_question`
(`INSERT OR IGNORE INTO srs_stats (question_id, next_review)`). -/
def initSrsRow (question_id : Nat) (now : ℤ) : SrsRow :=
  { question_id := question_id, next_review := some now }

/-- Truthiness of the Python `options`/`correct_answers` arguments:
`json.dumps(x) if x else None` stores `NULL` for both `None` and `[]`. -/
def storedList (l : Option (List PyStr)) : Option (List PyStr) :=
  if l.getD [] = [] then none else l

/-- `Database.add_question`.

`INSERT OR REPLACE INTO questions` deletes any row conflicting on
`UNIQUE(quiz_file, question_id)` and inserts a row with a fresh
AUTOINCREMENT id (`cursor.lastrowid`); the subsequent
`INSERT OR IGNORE INTO srs_stats` inserts default SRS stats for that id
unless a row with exactly that id already exists.  Returns the id handed
back to the caller together with the new database. -/
def add_question (db : DB) (quiz_file question_id question_text correct_answer : PyStr)
    (question_type : PyStr) (options correct_answers : Option (List PyStr))
    (now : ℤ) : Nat × DB :=
  let newId := db.seq + 1
  let kept :=
    db.questions.filter (fun r => !(r.quiz_file == quiz_file && r.question_id == question_id))
  let row : QuestionRow :=
    { id := newId, quiz_file := quiz_file, question_id := question_id
      question_text := question_text, correct_answer := correct_answer
      question_type := question_type
      options := storedList options
      correct_answers := storedList correct_answers }
  let srs :=
    if db.srs_stats.any (fun s => s.question_id == newId) then db.srs_stats
    else db.srs_stats ++ [initSrsRow newId now]
  (newId,
   { questions := kept ++ [row], user_answers := db.user_answers
     srs_stats := srs, seq := newId })

/-- `Database.record_answer`: append the answer event, then update the SRS
stats. -/
def record_answer (db : DB) (question_db_id : Nat) (user_answer : PyStr)
    (is_correct : Bool) (response_time : Option ℚ) (now : ℤ) : DB :=
  let db' :=
    { db with
      user_answers :=
        db.user_answers ++
          [{ question_id := question_db_id, user_answer := user_answer
             is_correct := is_correct, timestamp := now
             response_time := response_time }] }
  update_srs_stats db' question_db_id is_correct now

/-! Section: due-question selection (`get_questions_for_review`,
`QuizManager.get_next_question`) -/

/-- The `LEFT JOIN`ed `next_review` of a question: `NULL` when there is no
`srs_stats` row, otherwise that row's (nullable) `next_review`. -/
def nextReviewOf (db : DB) (q : QuestionRow) : Option ℤ :=
  (db.srs_stats.find? (fun s => s.question_id == q.id)).bind (fun s => s.next_review)

/-- Likewise for the joined `difficulty` (`NULL` → `none`). -/
def difficultyOf (db : DB) (q : QuestionRow) : Option ℚ :=
  (db.srs_stats.find? (fun s => s.question_id == q.id)).map (fun s => s.difficulty)

/-- The `WHERE` clause of `get_questions_for_review`:
`(s.next_review IS NULL OR s.next_review <= now)` and, when a truthy
`quiz_file` was supplied, `q.quiz_file = ?`. -/
def dueFilter (db : DB) (quiz_file : Option PyStr) (now : ℤ) (q : QuestionRow) : Bool :=
  (match nextReviewOf db q with
   | none => true
   | some t => t ≤ now) &&
  (match quiz_file with
   | none => true
   | some f => if f = [] then true else q.quiz_file == f)

/-- Insert into a sorted list (structural insertion sort, used to model
`ORDER BY`; no claim under study depends on the ordering itself). -/
def insertSorted (le : QuestionRow → QuestionRow → Bool) (x : QuestionRow) :
    List QuestionRow → List QuestionRow
  | [] => [x]
  | y :: ys => if le x y then x :: y :: ys else y :: insertSorted le x ys

/-- Sort a candidate list by the given order. -/
def sortByFn (le : QuestionRow → QuestionRow → Bool) :
    List QuestionRow → List QuestionRow
  | [] => []
  | x :: xs => insertSorted le x (sortByFn le xs)

/-- `ORDER BY s.next_review ASC, s.difficulty DESC` (SQLite sorts `NULL`
first in `ASC`, last in `DESC`). -/
def reviewOrder (db : DB) (a b : QuestionRow) : Bool :=
  match nextReviewOf db a, nextReviewOf db b with
  | none, _ => true
  | some _, none => false
  | some x, some y =>
    if x = y then
      match difficultyOf db a, difficultyOf db b with
      | none, none => true
      | none, some _ => false
      | some _, none => true
      | some da, some db' => db' ≤ da
    else x ≤ y

/-- `Database.get_questions_for_review`. -/
def get_questions_for_review (db : DB) (quiz_file : Option PyStr) (limit : Nat)
    (now : ℤ) : List QuestionRow :=
  ((sortByFn (reviewOrder db) (db.questions.filter (dueFilter db quiz_file now))).take limit)

/-- The `mode == "random"` branch of `QuizManager.get_next_question`:
fetch up to 100 due questions and pick one with `random.choice`; the random
draw is modelled by an arbitrary index `k` reduced mod the candidate count
(`none` when the candidate list is empty). -/
def get_next_question_random (db : DB) (quiz_file : Option PyStr) (now : ℤ)
    (k : Nat) : Option QuestionRow :=
  let questions_data := get_questions_for_review db quiz_file 100 now
  questions_data.get? (k % questions_data.length)

/-- The `mode == "review"` branch of `QuizManager.get_next_question`. -/
def get_next_question_review (db : DB) (quiz_file : Option PyStr) (now : ℤ) :
    Option QuestionRow :=
  (get_questions_for_review db quiz_file 1 now).head?

/-! Section: content parser (`src/quiz_parser.py`)

The `Question` dataclass.  Python stores field payloads untyped; the
embedding renders non-string JSON payloads to text where the dataclass
would hold them (the claims under study never depend on those renderings).
-/

/-- The `Question` dataclass of `quiz_parser.py`. -/
structure Question where
  id : PyStr
  question : PyStr
  answer : PyStr
  options : Option (List PyStr) := none
  category : PyStr := []
  difficulty : ℤ := 1
  question_type : PyStr := pys "text"
  correct_answers : Option (List PyStr) := none
deriving DecidableEq, Repr

/-- JSON values as delivered by `json.load`. -/
inductive JVal where
  | str (s : PyStr)
  | num (n : ℤ)
  | bool (b : Bool)
  | null
  | arr (items : List JVal)
  | obj (fields : List (PyStr × JVal))

/-- `value == "literal"` on a JSON payload. -/
def jIsStr (v : JVal) (s : PyStr) : Bool :=
  match v with
  | .str t => t == s
  | _ => false

/-- Decimal digits of a natural number. -/
def natDigits (n : Nat) : PyStr :=
  (toString n).toList

/-- Python `str(value)` for JSON payloads (ASCII scope; containers are
rendered to a placeholder, no claim depends on them). -/
def jRender : JVal → PyStr
  | .str s => s
  | .num n => if n < 0 then '-' :: natDigits n.natAbs else natDigits n.natAbs
  | .bool b => if b then pys "True" else pys "False"
  | .null => pys "None"
  | .arr _ => pys "<list>"
  | .obj _ => pys "<dict>"

/-- Python `dict.get(key, default)` on a JSON object (`json.load` keeps the
last value of a duplicated key). -/
def jGetD (fields : List (PyStr × JVal)) (key : PyStr) (dflt : JVal) : JVal :=
  (fields.foldl (fun acc kv => if kv.1 = key then some kv.2 else acc) none).getD dflt

/-- Python truthiness of a JSON payload. -/
def jTruthy : JVal → Bool
  | .str s => !s.isEmpty
  | .num n => n ≠ 0
  | .bool b => b
  | .null => false
  | .arr l => !l.isEmpty
  | .obj f => !f.isEmpty

/-- Python `len(value)` for the sized payloads (`correct_answers` is only
measured after a truthiness check, and is a list in every accepted input). -/
def jLen : JVal → Nat
  | .str s => s.length
  | .arr l => l.length
  | .obj f => f.length
  | _ => 0

/-- A JSON list payload as a list of rendered strings (`None` for `null`,
mirroring the dataclass defaults). -/
def jToStrList : JVal → Option (List PyStr)
  | .null => none
  | .arr l => some (l.map jRender)
  | v => some [jRender v]

/-- Python `", ".join(items)`. -/
def joinCommaSpace : List PyStr → PyStr
  | [] => []
  | [x] => x
  | x :: xs => x ++ ',' :: ' ' :: joinCommaSpace xs

/-- `QuizParser._create_question_from_dict`. -/
def create_question_from_dict (item : List (PyStr × JVal)) (default_id : PyStr) :
    Question :=
  let question_id := jGetD item (pys "id") (.str default_id)
  let question_text := jGetD item (pys "question") (jGetD item (pys "q") (.str []))
  let answer := jGetD item (pys "answer") (jGetD item (pys "a") (.str []))
  let options := jGetD item (pys "options") (jGetD item (pys "choices") (.arr []))
  let category := jGetD item (pys "category") (jGetD item (pys "topic") (.str []))
  let difficulty := jGetD item (pys "difficulty") (.num 1)
  let question_type := jGetD item (pys "type") (.str (pys "text"))
  let correct_answers := jGetD item (pys "correct_answers") .null
  let question_type :=
    if jTruthy options && jIsStr question_type (pys "text") then
      if jTruthy correct_answers && jLen correct_answers > 1 then
        JVal.str (pys "multiple_choice")
      else if jTruthy correct_answers || jTruthy answer then
        JVal.str (pys "single_choice")
      else question_type
    else question_type
  match answer with
  | .arr items =>
    { id := jRender question_id
      question := jRender question_text
      answer := joinCommaSpace (items.map jRender)
      options := jToStrList options
      category := jRender category
      difficulty := (match difficulty with | .num n => n | _ => 1)
      question_type := pys "multiple_choice"
      correct_answers := some (items.map jRender) }
  | _ =>
    { id := jRender question_id
      question := jRender question_text
      answer := jRender answer
      options := jToStrList options
      category := jRender category
      difficulty := (match difficulty with | .num n => n | _ => 1)
      question_type := jRender question_type
      correct_answers := jToStrList correct_answers }

/-- Exceptions `_parse_json` can propagate while walking an already-decoded
JSON document. -/
inductive PyErr where
  | attributeError
  | typeError
deriving DecidableEq, Repr

/-- `QuizParser._parse_json`, applied to the decoded document.

* top-level list: dict items become questions, other items are skipped
  (`if isinstance(item, dict)`), `enumerate` indices are the default ids;
* top-level dict with a `questions` key: every item of that payload is fed
  to `_create_question_from_dict`, so a non-dict item raises
  (`AttributeError` on `.get`); a non-iterable payload raises `TypeError`;
* any other top-level dict: flat `prompt -> answer` mapping;
* every other top-level value falls through both `isinstance` checks and
  the initial `questions = []` is returned unchanged. -/
def parse_json : JVal → Except PyErr (List Question)
  | .arr items =>
    .ok ((items.enum.filterMap (fun p =>
      match p.2 with
      | .obj fields => some (create_question_from_dict fields (natDigits p.1))
      | _ => none)))
  | .obj fields =>
    if fields.any (fun kv => kv.1 == pys "questions") then
      match jGetD fields (pys "questions") .null with
      | .arr items =>
        items.enum.mapM (fun p =>
          match p.2 with
          | .obj f => .ok (create_question_from_dict f (natDigits p.1))
          | _ => .error .attributeError)
      | .str s => if s.isEmpty then .ok [] else .error .attributeError
      | .obj f => if f.isEmpty then .ok [] else .error .attributeError
      | _ => .error .typeError
    else
      .ok (fields.map (fun kv =>
        { id := kv.1, question := kv.1, answer := jRender kv.2 }))
  | _ => .ok []

/-! Section: markdown parser (`QuizParser._parse_markdown`)

The regexes of `_parse_markdown` are line-oriented on the inputs the
program accepts (every lazy group `(.+?)` is delimited by an explicit
`\n`), so the embedding works on the list of lines of the file content.
The key structural fact, visible verbatim in the source pattern

  `Q:\s*(.+?)\n(?:A[).\]]\s*(.+?)\n)(?:B[).\]]\s*(.+?)\n)`
  `(?:C[).\]]\s*(.+?)\n)(?:D[).\]]\s*(.+?)\n)(?:Answer:|...)`,

is that the four option groups are `(?:...)`, not `(?:...)?`: all four
labelled option lines are mandatory for a block to match at all. -/

/-- Split a string at every occurrence of a character, keeping empty
pieces (Python `s.split(sep)`). -/
def splitOnCharFn (sep : Char) : PyStr → List PyStr
  | [] => [[]]
  | c :: rest =>
    if c = sep then [] :: splitOnCharFn sep rest
    else
      match splitOnCharFn sep rest with
      | [] => [[c]]
      | s :: ss => (c :: s) :: ss

/-- The lines of the file content (`content.split('\n')`). -/
def splitLinesFn (content : PyStr) : List PyStr := splitOnCharFn '\n' content

/-- Rest of a line after a literal tag, `none` when the tag is absent or
nothing follows it (a regex group `(.+?)` needs at least one character). -/
def afterTag (tag : PyStr) (l : PyStr) : Option PyStr :=
  if tag.isPrefixOf l ∧ l.length > tag.length then some (l.drop tag.length) else none

/-- An option line `X[).\]] <text>` of the ABCD pattern. -/
def optLine (label : Char) (l : PyStr) : Option PyStr :=
  match l with
  | c :: b :: rest =>
    if c = label ∧ (b = ')' ∨ b = '.' ∨ b = ']') ∧ rest ≠ [] then some rest else none
  | _ => none

/-- The answer line `(Answer:|Odpowiedź:|Poprawna:|Correct:) <letters>`,
whose payload must consist of `[A-D,\s]` characters only. -/
def ansLine (l : PyStr) : Option PyStr :=
  let tags := [pys "Answer:", pys "Odpowiedź:", pys "Poprawna:", pys "Correct:"]
  match tags.filterMap (fun t => afterTag t l) with
  | rest :: _ =>
    if rest ≠ [] ∧ rest.all (fun c => c ∈ ['A', 'B', 'C', 'D', ','] ∨ isPySpace c) then
      some rest
    else none
  | [] => none

/-- One raw ABCD block: question, the four mandatory option payloads, and
the answer-letter payload. -/
structure AbcdBlock where
  qtext : PyStr
  optA : PyStr
  optB : PyStr
  optC : PyStr
  optD : PyStr
  letters : PyStr
deriving DecidableEq, Repr

/-- `re.findall` of the ABCD pattern over the lines: a match needs a `Q:`
line, all four option lines, an answer line, and then a blank line or the
end of the content (`(?:\n\n|\n$|$)`); the scan resumes after a match.
The scans are written with an explicit fuel (each step consumes at least
one line, so `fuel = number of lines` never runs out). -/
def scanAbcdFuel : Nat → List PyStr → List AbcdBlock
  | 0, _ => []
  | fuel + 1, ls =>
    match ls with
    | l0 :: l1 :: l2 :: l3 :: l4 :: l5 :: rest =>
      match afterTag (pys "Q:") l0, optLine 'A' l1, optLine 'B' l2,
          optLine 'C' l3, optLine 'D' l4, ansLine l5 with
      | some q, some a, some b, some c, some d, some ans =>
        if rest = [] ∨ rest.head? = some [] then
          ⟨q, a, b, c, d, ans⟩ :: scanAbcdFuel fuel rest
        else scanAbcdFuel fuel (l1 :: l2 :: l3 :: l4 :: l5 :: rest)
      | _, _, _, _, _, _ => scanAbcdFuel fuel (l1 :: l2 :: l3 :: l4 :: l5 :: rest)
    | _ => []

/-- The ABCD scan over all lines. -/
def scanAbcd (ls : List PyStr) : List AbcdBlock := scanAbcdFuel ls.length ls

/-- `re.split(r'[,\s]+', s)` restricted to the non-empty tokens the code
keeps. -/
def splitLetterTokens (s : PyStr) : List PyStr :=
  pyTokensAux (s.map (fun c => if c = ',' then ' ' else c)) []

/-- The per-block body of the ABCD loop in `_parse_markdown`: build the
option map from the non-blank options, keep the answer letters that name a
present option, and emit a single- or multiple-choice question; blocks
with no options or no valid letters yield nothing. -/
def processAbcdBlock (idx : Nat) (blk : AbcdBlock) : Option Question :=
  let entry := fun (o : PyStr) => if pyStrip o ≠ [] then some (pyStrip o) else none
  let options := [blk.optA, blk.optB, blk.optC, blk.optD].filterMap entry
  let optMap : Char → Option PyStr := fun ch =>
    if ch = 'A' then entry blk.optA
    else if ch = 'B' then entry blk.optB
    else if ch = 'C' then entry blk.optC
    else if ch = 'D' then entry blk.optD
    else none
  if options = [] then none
  else
    let answer_letters := pyUpper (pyStrip blk.letters)
    let correct_letters :=
      (splitLetterTokens answer_letters).filter (fun tk =>
        match tk with
        | [ch] => (optMap ch).isSome
        | _ => false)
    if correct_letters = [] then none
    else
      let correct_answers :=
        correct_letters.filterMap (fun tk =>
          match tk with
          | [ch] => optMap ch
          | _ => none)
      match correct_answers with
      | [single] =>
        some { id := natDigits idx, question := pyStrip blk.qtext
               answer := single, options := some options
               question_type := pys "single_choice"
               correct_answers := some [single] }
      | many =>
        some { id := natDigits idx, question := pyStrip blk.qtext
               answer := joinCommaSpace many, options := some options
               question_type := pys "multiple_choice"
               correct_answers := some many }

/-- Emit the ABCD questions; the id counter advances only on emitted
questions. -/
def emitAbcd (idx : Nat) : List AbcdBlock → List Question
  | [] => []
  | blk :: rest =>
    match processAbcdBlock idx blk with
    | some q => q :: emitAbcd (idx + 1) rest
    | none => emitAbcd idx rest

/-- Pattern `Q: ...\nA: ...`: consecutive line pairs. -/
def scanQAFuel : Nat → List PyStr → List (PyStr × PyStr)
  | 0, _ => []
  | fuel + 1, ls =>
    match ls with
    | l0 :: l1 :: rest =>
      match afterTag (pys "Q:") l0, afterTag (pys "A:") l1 with
      | some q, some a => (q, a) :: scanQAFuel fuel rest
      | _, _ => scanQAFuel fuel (l1 :: rest)
    | _ => []

/-- Pattern `## ...\n<answer>`. -/
def scanHeaderFuel : Nat → List PyStr → List (PyStr × PyStr)
  | 0, _ => []
  | fuel + 1, ls =>
    match ls with
    | l0 :: l1 :: rest =>
      match afterTag (pys "##") l0 with
      | some q =>
        if l1 ≠ [] then (q, l1) :: scanHeaderFuel fuel rest
        else scanHeaderFuel fuel (l1 :: rest)
      | none => scanHeaderFuel fuel (l1 :: rest)
    | _ => []

/-- Pattern `**...**\n<answer>`. -/
def scanBoldFuel : Nat → List PyStr → List (PyStr × PyStr)
  | 0, _ => []
  | fuel + 1, ls =>
    match ls with
    | l0 :: l1 :: rest =>
      (match l0 with
       | '*' :: '*' :: mid =>
         if (pys "**").isSuffixOf mid ∧ mid.length > 2 ∧ l1 ≠ [] then
           ((mid.take (mid.length - 2), l1) :: scanBoldFuel fuel rest)
         else scanBoldFuel fuel (l1 :: rest)
       | _ => scanBoldFuel fuel (l1 :: rest))
    | _ => []

/-- Pattern `...?\n<answer>`: a line ending in a question mark. -/
def scanQMarkFuel : Nat → List PyStr → List (PyStr × PyStr)
  | 0, _ => []
  | fuel + 1, ls =>
    match ls with
    | l0 :: l1 :: rest =>
      if l0.getLast? = some '?' ∧ l0.length ≥ 2 ∧ l1 ≠ [] then
        (l0, l1) :: scanQMarkFuel fuel rest
      else scanQMarkFuel fuel (l1 :: rest)
    | _ => []

/-- The four text-pattern scans over all lines. -/
def scanQA (ls : List PyStr) : List (PyStr × PyStr) := scanQAFuel ls.length ls

/-- See `scanQA`. -/
def scanHeader (ls : List PyStr) : List (PyStr × PyStr) := scanHeaderFuel ls.length ls

/-- See `scanQA`. -/
def scanBold (ls : List PyStr) : List (PyStr × PyStr) := scanBoldFuel ls.length ls

/-- See `scanQA`. -/
def scanQMark (ls : List PyStr) : List (PyStr × PyStr) := scanQMarkFuel ls.length ls

/-- Pair the remaining lines `(2i, 2i+1)` (final fallback of
`_parse_markdown`). -/
def pairLines : List PyStr → List (PyStr × PyStr)
  | a :: b :: rest => (a, b) :: pairLines rest
  | _ => []

/-- A plain text question as emitted by the fallback paths. -/
def mkTextQuestion (idx : Nat) (q a : PyStr) : Question :=
  { id := natDigits idx, question := pyStrip q, answer := pyStrip a
    question_type := pys "text" }

/-- `QuizParser._parse_markdown` on the file content. -/
def parse_markdown (content : PyStr) : List Question :=
  let lines := splitLinesFn content
  let abcd := emitAbcd 0 (scanAbcd lines)
  if abcd ≠ [] then abcd
  else
    let patternHits :=
      match scanQA lines, scanHeader lines, scanBold lines, scanQMark lines with
      | [], [], [], qm => qm
      | [], [], bo, _ => bo
      | [], he, _, _ => he
      | qa, _, _, _ => qa
    if patternHits ≠ [] then
      patternHits.enum.map (fun p => mkTextQuestion p.1 p.2.1 p.2.2)
    else
      (pairLines (splitLinesFn (pyStrip content))).enum.map
        (fun p => mkTextQuestion p.1 p.2.1 p.2.2)

/-! Section: specification-side definitions

Declarative transcriptions of the specification's description of the
multi-choice verifier, to be compared with the embedded code. -/

/-- The multi-choice policy exactly as the specification words it: the
letters interpretation applies when every character of the normalised
submission is a letter a–d, a comma, **or whitespace**; each in-range
letter is mapped to its (normalised) option text, letters with no
corresponding option are dropped, and the resulting set must equal the
normalised canonical set; otherwise the submission is split on commas,
each segment normalised, and the sets compared. -/
def claimed_multiple_choice (user_answer : PyStr) (correct_answers : List PyStr)
    (options : Option (List PyStr)) : Bool :=
  let un := pyNorm user_answer
  let canonical := (correct_answers.map pyNorm).toFinset
  if un.all (fun c => c ∈ ['a', 'b', 'c', 'd', ','] || isPySpace c) then
    let os := options.getD []
    let chosen :=
      (un.filter (fun c => c ∈ ['a', 'b', 'c', 'd'])).filterMap
        (fun c => (os.get? (c.toNat - 97)).map pyNorm)
    chosen.toFinset == canonical
  else
    ((pySplitComma user_answer).map pyNorm).toFinset == canonical

/-- The same policy with the one correction the code forces: the letters
interpretation requires every character to be a letter a–d, a comma, or a
**space character** (other whitespace, e.g. a tab, routes the submission
to the comma-splitting branch). -/
def amended_multiple_choice (user_answer : PyStr) (correct_answers : List PyStr)
    (options : Option (List PyStr)) : Bool :=
  let un := pyNorm user_answer
  let canonical := (correct_answers.map pyNorm).toFinset
  if un.all (fun c => c ∈ ['a', 'b', 'c', 'd', ','] || c = ' ') then
    let os := options.getD []
    let chosen :=
      (un.filter (fun c => c ∈ ['a', 'b', 'c', 'd'])).filterMap
        (fun c => (os.get? (c.toNat - 97)).map pyNorm)
    chosen.toFinset == canonical
  else
    ((pySplitComma user_answer).map pyNorm).toFinset == canonical

/-- Whether a decoded JSON document's top level is one of the container
shapes `_parse_json` dispatches on. -/
def jIsTopContainer : JVal → Bool
  | .arr _ => true
  | .obj _ => true
  | _ => false

/-! Section: concrete scenarios -/

/-- Registration of a question into the empty store. -/
def c1_reg1 : Nat × DB :=
  add_question emptyDB (pys "quiz.md") (pys "q1") (pys "Prompt") (pys "Ans")
    (pys "text") none none 0

/-- One correct answer to that question. -/
def c1_db2 : DB := record_answer c1_reg1.2 c1_reg1.1 (pys "Ans") true none 0

/-- Re-registration of the same (quiz-file, question-id) identity. -/
def c1_reg2 : Nat × DB :=
  add_question c1_db2 (pys "quiz.md") (pys "q1") (pys "Prompt") (pys "Ans")
    (pys "text") none none 0

/-- A registered, already-reviewed question whose next review lies in the
future. -/
def q9 : QuestionRow :=
  { id := 1, quiz_file := pys "quiz.md", question_id := pys "q1"
    question_text := pys "Prompt", correct_answer := pys "Ans"
    question_type := pys "text", options := none, correct_answers := none }

/-- A store holding exactly `q9`, with nothing due at time 0. -/
def db9 : DB :=
  { questions := [q9], user_answers := []
    srs_stats := [{ question_id := 1, repetitions := 1, next_review := some 10
                    last_review := some 0 }]
    seq := 1 }

/-- A markdown choice block with only three of the four labelled option
lines (`C)` is missing) and an answer letter naming a present option. -/
def md3 : PyStr :=
  pys "Q: Which battle took place in 1410\nA) Grunwald\nB) Vienna\nD) Kircholm\nAnswer: A"

/-- The same block with all four option lines present. -/
def md4 : PyStr :=
  pys "Q: Which battle took place in 1410\nA) Grunwald\nB) Vienna\nC) Komarow\nD) Kircholm\nAnswer: A"

/-! Section: theorems -/

/-- C1: the specification requires `add_question` to be idempotent on
(quiz-file, question-id) — returning a stable id and leaving the existing
`srs_stats` row untouched — and the code's own `INSERT OR IGNORE`
initialisation ("initialise SRS stats if they do not exist") shows the
same intent.  The `INSERT OR REPLACE` into `questions`, however, deletes
the conflicting row and allocates a fresh AUTOINCREMENT id, so
re-registration returns a different id (2, not 1) and attaches brand-new
default SRS stats (repetitions 0, interval 1, ease 2.5) to the question,
orphaning the earlier review state (repetitions 1). -/
theorem add_question_regeneration_resets_srs :
    c1_reg1.1 = 1 ∧
    (c1_db2.srs_stats.find? (fun s => s.question_id == c1_reg1.1)).map
        (fun s => s.repetitions) = some 1 ∧
    c1_reg2.1 = 2 ∧
    (c1_reg2.2.questions.find? (fun r =>
        r.quiz_file == pys "quiz.md" && r.question_id == pys "q1")).map
        (fun r => r.id) = some 2 ∧
    (c1_reg2.2.srs_stats.find? (fun s => s.question_id == (2 : Nat))).map
        (fun s => (s.repetitions, s.interval_days, s.ease_factor)) =
      some (0, 1, 5 / 2) :=
  ⟨rfl, rfl, rfl, rfl, rfl⟩

/-- C3: an incorrect answer resets repetitions to 0 and the interval to
1 day, and decreases the ease factor by 0.2 clamped below at 1.3. -/
theorem incorrect_answer_resets_state (r : SrsRow) (now : ℤ) :
    (update_srs_row r false now).repetitions = 0 ∧
    (update_srs_row r false now).interval_days = 1 ∧
    (update_srs_row r false now).ease_factor = max (13 / 10) (r.ease_factor - 1 / 5) :=
  ⟨rfl, rfl, rfl⟩

/-- Every single scheduler transition clamps the ease factor at 1.3. -/
theorem update_srs_row_ease_lb (s : SrsRow) (b : Bool) (now : ℤ) :
    (13 : ℚ) / 10 ≤ (update_srs_row s b now).ease_factor := by
  cases b
  · exact le_max_left _ _
  · exact le_max_left _ _

/-- The clamp is preserved by any event sequence. -/
theorem ease_lb_foldl (evs : List (Bool × ℤ)) :
    ∀ s : SrsRow, (13 : ℚ) / 10 ≤ s.ease_factor →
      (13 : ℚ) / 10 ≤
        (evs.foldl (fun st e => update_srs_row st e.1 e.2) s).ease_factor := by
  induction evs with
  | nil => exact fun s h => h
  | cons e rest ih => exact fun s _ => ih _ (update_srs_row_ease_lb s e.1 e.2)

/-- C4: the ease factor is 2.5 (≥ 1.3) at creation, is ≥ 1.3 after any one
scheduler transition from any state, and stays ≥ 1.3 under every finite
sequence of (correctness, time) answer events applied to a fresh row. -/
theorem ease_factor_lower_bound_invariant :
    (∀ (qid : Nat) (now : ℤ), (initSrsRow qid now).ease_factor = 5 / 2) ∧
    (∀ (s : SrsRow) (b : Bool) (now : ℤ),
      (13 : ℚ) / 10 ≤ (update_srs_row s b now).ease_factor) ∧
    (∀ (qid : Nat) (now : ℤ) (evs : List (Bool × ℤ)),
      (13 : ℚ) / 10 ≤
        (evs.foldl (fun st e => update_srs_row st e.1 e.2)
          (initSrsRow qid now)).ease_factor) :=
  ⟨fun _ _ => rfl, update_srs_row_ease_lb,
   fun _ _ evs => ease_lb_foldl evs _ (by norm_num [initSrsRow])⟩

/-- C7: the specification asserts that a choice block with only three of
the four labelled option lines still yields one question carrying the
three options, and the loop body's guards (`if opt_a and opt_a.strip()`,
`if not options: continue`) show that intent — but the ABCD regex makes
all four option groups mandatory, so the three-option block never matches:
the content falls through to the final line-pairing fallback and comes out
as two plain-text "questions".  With the fourth option line restored, the
very same block parses into one single-choice question with 4 options. -/
theorem markdown_three_option_block_not_emitted :
    ((parse_markdown md3).map (fun q => q.question_type)) = [pys "text", pys "text"] ∧
    ((parse_markdown md3).map (fun q => q.options)) = [none, none] ∧
    ((parse_markdown md4).map (fun q =>
        (q.question_type, (q.options.getD []).length, q.answer))) =
      [(pys "single_choice", 4, pys "Grunwald")] :=
  ⟨rfl, rfl, rfl⟩

/-- C8 counterexample: a structured source whose top level is the scalar
`true` does not raise — `_parse_json` falls through both `isinstance`
checks and returns the (empty) question list. -/
theorem parse_json_scalar_returns_empty :
    parse_json (JVal.bool true) = Except.ok [] := rfl

/-- C8 (amended): for every decoded document whose top level is neither a
list nor an object, `_parse_json` returns the empty question sequence
(no error is raised for such sources). -/
theorem parse_json_unaccepted_top_level (v : JVal) (h : jIsTopContainer v = false) :
    parse_json v = Except.ok [] := by
  cases v with
  | str s => rfl
  | num n => rfl
  | bool b => rfl
  | null => rfl
  | arr items => simp [jIsTopContainer] at h
  | obj fields => simp [jIsTopContainer] at h

/-- Witness for C8's amended theorem at the concrete scalar document `7`. -/
theorem parse_json_unaccepted_top_level_witness :
    jIsTopContainer (JVal.num 7) = false ∧ parse_json (JVal.num 7) = Except.ok [] :=
  ⟨rfl, parse_json_unaccepted_top_level (JVal.num 7) rfl⟩

/-- C9 counterexample: a store with one registered, already-reviewed
question whose next review lies strictly in the future; random-mode
selection returns no question instead of falling back to all registered
questions. -/
theorem random_mode_no_due_counterexample :
    db9.questions.length = 1 ∧
    nextReviewOf db9 q9 = some 10 ∧ (0 : ℤ) < 10 ∧
    (db9.srs_stats.map (fun s => s.repetitions)) = [1] ∧
    get_next_question_random db9 none 0 0 = none := by
  refine ⟨rfl, rfl, by norm_num, rfl, rfl⟩

/-- C9 (amended): in random mode, whenever every registered question has a
strictly future next-review time, `get_next_question` returns `none`; the
code has no fallback that widens the candidate set to all registered
questions. -/
theorem random_mode_no_due_returns_none (db : DB) (quiz_file : Option PyStr)
    (now : ℤ) (k : Nat) (_hne : db.questions ≠ [])
    (h : ∀ q ∈ db.questions, ∃ t, nextReviewOf db q = some t ∧ now < t) :
    get_next_question_random db quiz_file now k = none := by
  have hf : db.questions.filter (dueFilter db quiz_file now) = [] := by
    apply List.filter_eq_nil_iff.2
    intro q hq
    obtain ⟨t, ht, hlt⟩ := h q hq
    unfold dueFilter
    rw [ht]
    simp only [Bool.and_eq_true, decide_eq_true_eq]
    rintro ⟨hle, -⟩
    omega
  unfold get_next_question_random get_questions_for_review
  rw [hf]
  simp [sortByFn]

/-- Witness for C9's amended theorem at the concrete store `db9`. -/
theorem random_mode_no_due_returns_none_witness :
    db9.questions ≠ [] ∧ get_next_question_random db9 none 0 0 = none :=
  ⟨by decide,
   random_mode_no_due_returns_none db9 none 0 0 (by decide)
     (by
       intro q hq
       simp only [db9, List.mem_singleton] at hq
       subst hq
       exact ⟨10, rfl, by norm_num⟩)⟩

/-- C2: on a correct answer the new interval is 1 day for repetitions 0,
6 days for repetitions 1, and otherwise `floor(interval × ease)`;
repetitions increments; and from repetitions 0 two consecutive correct
answers give the interval sequence 1 then 6.  (The nonnegativity
hypotheses identify Python's `int()` truncation with `floor` and hold for
every state the program creates.) -/
theorem correct_answer_interval_update (r : SrsRow) (now : ℤ)
    (h1 : 0 ≤ r.interval_days) (h2 : 0 ≤ r.ease_factor) :
    ((update_srs_row r true now).repetitions = r.repetitions + 1 ∧
     (update_srs_row r true now).interval_days =
       (if r.repetitions = 0 then 1
        else if r.repetitions = 1 then 6
        else ⌊(r.interval_days : ℚ) * r.ease_factor⌋)) ∧
    (r.repetitions = 0 →
      (update_srs_row r true now).interval_days = 1 ∧
      (update_srs_row (update_srs_row r true now) true now).interval_days = 6) := by
  have hprod : (0 : ℚ) ≤ (r.interval_days : ℚ) * r.ease_factor :=
    mul_nonneg (by exact_mod_cast h1) h2
  refine ⟨⟨rfl, ?_⟩, fun h0 => ⟨?_, ?_⟩⟩
  · show (if r.repetitions = 0 then (1 : ℤ)
      else if r.repetitions = 1 then 6
      else pyInt ((r.interval_days : ℚ) * r.ease_factor)) = _
    by_cases e0 : r.repetitions = 0
    · simp [e0]
    · by_cases e1 : r.repetitions = 1
      · simp [e0, e1]
      · simp [e0, e1, pyInt, hprod]
  · show (if r.repetitions = 0 then (1 : ℤ)
      else if r.repetitions = 1 then 6
      else pyInt ((r.interval_days : ℚ) * r.ease_factor)) = 1
    simp [h0]
  · have hreps : (update_srs_row r true now).repetitions = 1 := by
      show r.repetitions + 1 = 1
      omega
    show (if (update_srs_row r true now).repetitions = 0 then (1 : ℤ)
      else if (update_srs_row r true now).repetitions = 1 then 6
      else pyInt (((update_srs_row r true now).interval_days : ℚ) *
        (update_srs_row r true now).ease_factor)) = 6
    rw [hreps]
    norm_num

/-- Witness for C2 at a freshly created SRS row. -/
theorem correct_answer_interval_update_witness :
    (0 : ℤ) ≤ (initSrsRow 1 0).interval_days ∧
    (0 : ℚ) ≤ (initSrsRow 1 0).ease_factor ∧
    ((((update_srs_row (initSrsRow 1 0) true 0).repetitions =
          (initSrsRow 1 0).repetitions + 1 ∧
       (update_srs_row (initSrsRow 1 0) true 0).interval_days =
         (if (initSrsRow 1 0).repetitions = 0 then 1
          else if (initSrsRow 1 0).repetitions = 1 then 6
          else ⌊((initSrsRow 1 0).interval_days : ℚ) * (initSrsRow 1 0).ease_factor⌋)) ∧
      ((initSrsRow 1 0).repetitions = 0 →
        (update_srs_row (initSrsRow 1 0) true 0).interval_days = 1 ∧
        (update_srs_row (update_srs_row (initSrsRow 1 0) true 0) true 0).interval_days = 6))) :=
  ⟨by norm_num [initSrsRow], by norm_num [initSrsRow],
   correct_answer_interval_update (initSrsRow 1 0) 0 (by norm_num [initSrsRow])
     (by norm_num [initSrsRow])⟩

/-- A guarded subscript succeeds. -/
theorem listGetI_ok {l : List PyStr} {i : ℤ} (h0 : 0 ≤ i)
    (h1 : i < (l.length : ℤ)) : ∃ v, listGetI l i = .ok v := by
  unfold listGetI
  have ht : i.toNat < l.length := by omega
  exact ⟨_, dif_pos ⟨h0, ht⟩⟩

/-- The single-choice checker never raises. -/
theorem check_single_choice_total (ua ca : PyStr) (os : List PyStr) :
    ∃ b, check_single_choice_answer ua ca os = .ok b := by
  unfold check_single_choice_answer
  dsimp only
  split
  · split
    · split
      · rename_i hrange
        obtain ⟨t, ht⟩ := listGetI_ok hrange.1 hrange.2
        rw [ht]
        exact ⟨_, rfl⟩
      · exact ⟨_, rfl⟩
    · exact ⟨_, rfl⟩
  · exact ⟨_, rfl⟩

/-- The letters loop never raises. -/
theorem collectOptionTexts_total (os : List PyStr) (ls : List Char) :
    ∃ v, collectOptionTexts os ls = .ok v := by
  induction ls with
  | nil => exact ⟨[], rfl⟩
  | cons l rest ih =>
    obtain ⟨v, hv⟩ := ih
    unfold collectOptionTexts
    dsimp only
    by_cases hrange : 0 ≤ (l.toNat : ℤ) - 65 ∧ (l.toNat : ℤ) - 65 < (os.length : ℤ)
    · rw [if_pos hrange]
      obtain ⟨t, ht⟩ := listGetI_ok hrange.1 hrange.2
      rw [ht, hv]
      exact ⟨_, rfl⟩
    · rw [if_neg hrange]
      exact ⟨v, hv⟩

/-- The multi-choice checker never raises. -/
theorem check_multiple_choice_total (ua : PyStr) (cas : List PyStr)
    (os : Option (List PyStr)) :
    ∃ b, check_multiple_choice_answer ua cas os = .ok b := by
  unfold check_multiple_choice_answer
  dsimp only
  split
  · obtain ⟨v, hv⟩ :=
      collectOptionTexts_total (os.getD [])
        ((List.filter (fun c => decide (upperChar c ∈ ['A', 'B', 'C', 'D']))
          (pyNorm ua)).map upperChar)
    by_cases he : (os.getD []).isEmpty
    · rw [if_pos he]
      exact ⟨_, rfl⟩
    · rw [if_neg he, hv]
      exact ⟨_, rfl⟩
  · exact ⟨_, rfl⟩

/-- The free-text checker never raises. -/
theorem check_text_total (ua ca : PyStr) :
    ∃ b, check_text_answer ua ca = .ok b := by
  unfold check_text_answer
  dsimp only
  split
  · split
    · rename_i hcard
      have hne : ((((pyTokens (pyNorm ca)).toFinset.card : ℚ))) ≠ 0 := by
        exact_mod_cast hcard.ne'
      unfold divQ
      rw [if_neg hne]
      exact ⟨_, rfl⟩
    · exact ⟨_, rfl⟩
  · exact ⟨_, rfl⟩

/-- C10: the dispatching verifier is total — for every question type,
options list (empty or absent included), canonical answer, canonical
correct-answer set and submission, it returns a boolean verdict and never
propagates an error. -/
theorem check_answer_total (ua ca qt : PyStr) (os cas : Option (List PyStr)) :
    ∃ b, check_answer ua ca qt os cas = .ok b := by
  unfold check_answer
  split
  · exact check_single_choice_total _ _ _
  · split
    · exact check_multiple_choice_total _ _ _
    · exact check_text_total _ _

/-- Characterisation of the free-text verdict: correct iff exact
normalised match, or coverage of the canonical vocabulary ≥ 0.7 when the
normalised canonical answer is longer than 10 characters.  (When the
canonical answer has no tokens the rational quotient is `x / 0 = 0 < 0.7`,
matching the code's `len(correct_words) > 0` guard.) -/
theorem check_text_answer_ok_true_iff (ua ca : PyStr) :
    check_text_answer ua ca = Except.ok true ↔
      (pyNorm ua = pyNorm ca ∨
       ((pyNorm ca).length > 10 ∧
        (7 : ℚ) / 10 ≤
          ((((pyTokens (pyNorm ca)).toFinset ∩ (pyTokens (pyNorm ua)).toFinset).card : ℚ) /
            ((pyTokens (pyNorm ca)).toFinset.card : ℚ)))) := by
  unfold check_text_answer
  dsimp only
  by_cases hlen : (pyNorm ca).length > 10
  · rw [if_pos hlen]
    by_cases hcard : 0 < ((pyTokens (pyNorm ca)).toFinset).card
    · rw [if_pos hcard]
      have hne : (((pyTokens (pyNorm ca)).toFinset.card : ℚ)) ≠ 0 := by
        exact_mod_cast hcard.ne'
      unfold divQ
      rw [if_neg hne]
      simp only [Except.ok.injEq, Bool.or_eq_true, beq_iff_eq, decide_eq_true_eq]
      constructor
      · rintro (h | h)
        · exact .inl h
        · exact .inr ⟨hlen, h⟩
      · rintro (h | ⟨-, h⟩)
        · exact .inl h
        · exact .inr h
    · rw [if_neg hcard]
      have hc0 : (((pyTokens (pyNorm ca)).toFinset.card : ℚ)) = 0 := by
        have : ((pyTokens (pyNorm ca)).toFinset).card = 0 := by omega
        exact_mod_cast this
      simp only [Except.ok.injEq, beq_iff_eq, hc0, div_zero]
      constructor
      · exact .inl
      · rintro (h | ⟨-, h⟩)
        · exact h
        · norm_num at h
  · rw [if_neg hlen]
    simp only [Except.ok.injEq, beq_iff_eq]
    constructor
    · exact .inl
    · rintro (h | ⟨hl, -⟩)
      · exact h
      · exact absurd hl hlen

/-- C5: a free-text submission is judged correct iff it equals the
normalised canonical answer or — only for canonical answers longer than
10 characters — it covers at least 70% of the canonical answer's
whitespace-split vocabulary; on the 5-token canonical answer
"the quick brown fox jumps", covering 4 of 5 tokens verifies correct and
covering 3 of 5 verifies incorrect. -/
theorem text_answer_exact_or_coverage :
    (∀ ua ca : PyStr,
      check_text_answer ua ca = Except.ok true ↔
        (pyNorm ua = pyNorm ca ∨
         ((pyNorm ca).length > 10 ∧
          (7 : ℚ) / 10 ≤
            ((((pyTokens (pyNorm ca)).toFinset ∩ (pyTokens (pyNorm ua)).toFinset).card : ℚ) /
              ((pyTokens (pyNorm ca)).toFinset.card : ℚ))))) ∧
    check_text_answer (pys "quick brown fox jumps") (pys "the quick brown fox jumps") =
      Except.ok true ∧
    check_text_answer (pys "brown fox jumps") (pys "the quick brown fox jumps") =
      Except.ok false := by
  refine ⟨check_text_answer_ok_true_iff, ?_, ?_⟩
  · refine (check_text_answer_ok_true_iff _ _).mpr (.inr ⟨by decide, ?_⟩)
    have h1 :
        ((pyTokens (pyNorm (pys "the quick brown fox jumps"))).toFinset ∩
          (pyTokens (pyNorm (pys "quick brown fox jumps"))).toFinset).card = 4 := by decide
    have h2 : (pyTokens (pyNorm (pys "the quick brown fox jumps"))).toFinset.card = 5 := by
      decide
    rw [h1, h2]
    norm_num
  · obtain ⟨b, hb⟩ := check_text_total (pys "brown fox jumps") (pys "the quick brown fox jumps")
    have hnot : ¬(check_text_answer (pys "brown fox jumps") (pys "the quick brown fox jumps") =
        Except.ok true) := by
      rw [check_text_answer_ok_true_iff]
      rintro (h | ⟨-, h⟩)
      · exact absurd h (by decide)
      · have h1 :
            ((pyTokens (pyNorm (pys "the quick brown fox jumps"))).toFinset ∩
              (pyTokens (pyNorm (pys "brown fox jumps"))).toFinset).card = 3 := by decide
        have h2 : (pyTokens (pyNorm (pys "the quick brown fox jumps"))).toFinset.card = 5 := by
          decide
        rw [h1, h2] at h
        norm_num at h
    cases b with
    | true => exact absurd hb hnot
    | false => exact hb

/-- The letters the multi-choice checker collects are all upper-case A–D. -/
theorem mem_userLetters {un : PyStr} {x : Char}
    (hx : x ∈ (un.filter (fun c => decide (upperChar c ∈ ['A', 'B', 'C', 'D']))).map upperChar) :
    x ∈ ['A', 'B', 'C', 'D'] := by
  obtain ⟨c, hc, rfl⟩ := List.mem_map.1 hx
  have h := (List.mem_filter.1 hc).2
  simpa using h

/-- On letters known to be A–D, the guarded collection loop equals a plain
`filterMap` over optional subscripting. -/
theorem collectOptionTexts_eq (os : List PyStr) (ls : List Char)
    (h : ∀ l ∈ ls, l ∈ ['A', 'B', 'C', 'D']) :
    collectOptionTexts os ls =
      .ok (ls.filterMap (fun l => (os.get? (l.toNat - 65)).map pyNorm)) := by
  induction ls with
  | nil => rfl
  | cons l rest ih =>
    have hl : l ∈ ['A', 'B', 'C', 'D'] := h l (List.mem_cons_self l rest)
    have hrest : ∀ x ∈ rest, x ∈ ['A', 'B', 'C', 'D'] :=
      fun x hx => h x (List.mem_cons_of_mem l hx)
    have hb : 65 ≤ l.toNat ∧ l.toNat ≤ 68 := by fin_cases hl <;> exact ⟨by decide, by decide⟩
    unfold collectOptionTexts
    dsimp only
    simp only [List.filterMap_cons]
    by_cases hrange : 0 ≤ (l.toNat : ℤ) - 65 ∧ (l.toNat : ℤ) - 65 < (os.length : ℤ)
    · rw [if_pos hrange]
      have hlt : l.toNat - 65 < os.length := by omega
      have hidx : ((l.toNat : ℤ) - 65).toNat = l.toNat - 65 := by omega
      unfold listGetI
      rw [dif_pos ⟨hrange.1, by omega⟩, ih hrest, List.get?_eq_get hlt]
      simp [hidx]
    · rw [if_neg hrange]
      have hge : os.length ≤ l.toNat - 65 := by omega
      rw [ih hrest, List.get?_eq_none.2 hge]
      rfl

/-- C6 counterexample: the submission "a\tb" (tab-separated letters).  Its
normalised form consists of letters and *whitespace*, so the claimed
policy takes the letters interpretation and judges it correct against
options ["int","string"] with canonical set {"int","string"} — but the
code tests membership in the literal `'abcd, '`, a tab is not a space, so
the submission is comma-split into the single segment "a\tb" and judged
incorrect. -/
theorem multiple_choice_whitespace_counterexample :
    claimed_multiple_choice (pys "a\tb") [pys "int", pys "string"]
        (some [pys "int", pys "string"]) = true ∧
    check_multiple_choice_answer (pys "a\tb") [pys "int", pys "string"]
        (some [pys "int", pys "string"]) = Except.ok false := by
  exact ⟨by decide, rfl⟩

/-- C6 (amended): the multi-choice checker behaves exactly as the claim
describes once "whitespace" is corrected to "a space character": the
letters interpretation applies iff every character of the normalised
submission is a letter a–d, a comma, or a space. -/
theorem multiple_choice_matches_amended_spec (ua : PyStr) (cas : List PyStr)
    (os : Option (List PyStr)) :
    check_multiple_choice_answer ua cas os = .ok (amended_multiple_choice ua cas os) := by
  unfold check_multiple_choice_answer amended_multiple_choice
  dsimp only
  have hcondiff : ∀ c : Char,
      (decide (c ∈ ['a', 'b', 'c', 'd', ',', ' ']) : Bool) =
        (decide (c ∈ ['a', 'b', 'c', 'd', ',']) || decide (c = ' ')) := by
    intro c
    have hiff : (c ∈ ['a', 'b', 'c', 'd', ',', ' ']) ↔
        (c ∈ ['a', 'b', 'c', 'd', ','] ∨ c = ' ') := by
      simp only [List.mem_cons, List.not_mem_nil, or_false]
      tauto
    rw [decide_eq_decide.2 hiff, Bool.decide_or]
  simp only [hcondiff]
  by_cases hc :
      (pyNorm ua).all (fun c => decide (c ∈ ['a', 'b', 'c', 'd', ',']) || decide (c = ' ')) = true
  · simp only [hc, if_true]
    by_cases he : (os.getD []).isEmpty = true
    · simp only [he, if_true]
      have hosnil : os.getD [] = [] := by
        cases hx : os.getD [] with
        | nil => rfl
        | cons a t => rw [hx] at he; simp [List.isEmpty] at he
      rw [hosnil]
      have hnil : ∀ lst : List Char,
          lst.filterMap (fun c => ((([] : List PyStr).get? (c.toNat - 97)).map pyNorm)) = [] := by
        intro lst
        apply List.filterMap_eq_nil_iff.2
        intro a _
        rfl
      rw [hnil]
    · simp only [he, if_false]
      rw [collectOptionTexts_eq (os.getD []) _ (fun x hx => mem_userLetters hx)]
      rw [List.filterMap_map]
      have hfil :
          List.filter (fun c => decide (upperChar c ∈ ['A', 'B', 'C', 'D'])) (pyNorm ua) =
            List.filter (fun c => decide (c ∈ ['a', 'b', 'c', 'd'])) (pyNorm ua) := by
        apply List.filter_congr
        intro x hx
        have hallow := (List.all_eq_true.1 hc) x hx
        simp only [Bool.or_eq_true, decide_eq_true_eq] at hallow
        rcases hallow with h5 | hsp
        · fin_cases h5 <;> rfl
        · subst hsp; rfl
      rw [hfil]
      have hmapc : ∀ x ∈ List.filter (fun c => decide (c ∈ ['a', 'b', 'c', 'd'])) (pyNorm ua),
          ((fun l => ((os.getD []).get? (l.toNat - 65)).map pyNorm) ∘ upperChar) x =
            (fun c => ((os.getD []).get? (c.toNat - 97)).map pyNorm) x := by
        intro x hx
        have hx4 : x ∈ ['a', 'b', 'c', 'd'] := by
          have := (List.mem_filter.1 hx).2
          simpa using this
        fin_cases hx4 <;> rfl
      rw [List.filterMap_congr hmapc]
      rfl
  · simp only [Bool.not_eq_true] at hc
    simp only [hc]
    rfl

end ZakuZaku
